import Mathlib

/-!
Verification of the STEPS `TetODE` deterministic reaction-diffusion engine
(`cpp/tetode/tetode.cpp`, here distributed inside `cpp/geom/doxygen.hpp`,
together with `cpp/tetode/tetode.hpp`).

The C++ `double`/`realtype` values are embedded as exact rationals (`ℚ`),
`uint` as `ℕ` and `int` as `ℤ`.  The process-graph structures `structC`,
`structB`, `structA` and the global vector `pSpec_matrixsub` are translated
directly; stateful methods of `TetODE` become explicit state-passing
functions, and methods that `throw` become `Except`-valued functions.
-/

namespace Steps

/-- Reactant descriptor (`tetode.hpp`, `struct structC`): the per-species
`order` and the flat state-vector index `spec_idx` of one reactant. -/
structure structC where
  order : ℕ
  spec_idx : ℕ
deriving Repr, DecidableEq

/-- Left-hand-side container (`tetode.hpp`, `struct structB`): the list of
reactant descriptors of one process. -/
structure structB where
  info : List structC
deriving Repr, DecidableEq

/-- One process contributing to a state slot (`tetode.hpp`, `struct structA`):
scaled coefficient `ccst`, process id `r_idx`, stoichiometric update `upd`
and the reactant descriptors `players`. -/
structure structA where
  ccst : ℚ
  r_idx : ℕ
  upd : ℤ
  players : List structB
deriving Repr, DecidableEq

/-- The process graph `pSpec_matrixsub`: for every state-vector slot, the
list of processes contributing to its derivative. -/
abbrev Graph := List (List structA)

/-- The integer power used in `f_cvode`'s inner loop:
`if (order == 1) dydt_r *= val; else dydt_r *= pow(val, order);`. -/
def cPow (val : ℚ) (order : ℕ) : ℚ :=
  if order == 1 then val else val ^ order

/-- Inner loop of `f_cvode` over one `structB`: multiplies the accumulator by
`cPow (y spec_idx) order` for every descriptor of the `structB`. -/
def rateB (y : ℕ → ℚ) (acc : ℚ) (b : structB) : ℚ :=
  b.info.foldl (fun a q => a * cPow (y q.spec_idx) q.order) acc

/-- Middle loop of `f_cvode` over one `structA`: starts from
`upd * ccst` and folds `rateB` over the process's `players`. -/
def rateA (y : ℕ → ℚ) (a : structA) : ℚ :=
  a.players.foldl (rateB y) ((a.upd : ℚ) * a.ccst)

/-- Outer accumulation of `f_cvode` for one state slot: sums `rateA` over
the slot's process list (`dydt += dydt_r`). -/
def dydtOf (y : ℕ → ℚ) (sp : List structA) : ℚ :=
  sp.foldl (fun acc r => acc + rateA y r) 0

/-- The state visible to the CVODE right-hand-side callback: the process
graph (global `pSpec_matrixsub`), the input vector `y` and the output
vector `ydot`.  `y` is a raw-pointer read in C++, embedded as a total map. -/
structure CState where
  graph : Graph
  y : ℕ → ℚ
  ydot : List ℚ

/-- The CVODE right-hand-side callback `f_cvode` (tetode.cpp): writes
`dydt` for every slot into `ydot` in slot order and returns `0`.  The
graph and `y` are only read. -/
def f_cvode (s : CState) : CState × ℤ :=
  ({ s with ydot := s.graph.map (dydtOf s.y) }, 0)

/-- The specification's instantaneous rate of one process:
`c · u · ∏ y[state_index]^order` over the process's reactant descriptors. -/
def specRate (y : ℕ → ℚ) (a : structA) : ℚ :=
  (a.upd : ℚ) * a.ccst *
    (a.players.map (fun b => (b.info.map (fun q => y q.spec_idx ^ q.order)).prod)).prod

lemma cPow_eq_pow (val : ℚ) (order : ℕ) : cPow val order = val ^ order := by
  unfold cPow
  by_cases h : order = 1
  · simp [h]
  · simp [h]

lemma foldl_mul_eq_prod (f : α → ℚ) :
    ∀ (l : List α) (a : ℚ), l.foldl (fun acc q => acc * f q) a = a * (l.map f).prod := by
  intro l
  induction l with
  | nil => simp
  | cons x xs ih => intro a; simp [ih, mul_assoc]

lemma rateB_eq (y : ℕ → ℚ) (acc : ℚ) (b : structB) :
    rateB y acc b = acc * (b.info.map (fun q => y q.spec_idx ^ q.order)).prod := by
  unfold rateB
  have h := foldl_mul_eq_prod (fun q : structC => cPow (y q.spec_idx) q.order) b.info acc
  simp only [h]
  rw [List.map_congr_left (fun (q : structC) _ => cPow_eq_pow (y q.spec_idx) q.order)]

lemma foldl_rateB_eq (y : ℕ → ℚ) :
    ∀ (ps : List structB) (a : ℚ),
      ps.foldl (rateB y) a =
        a * (ps.map (fun b => (b.info.map (fun q => y q.spec_idx ^ q.order)).prod)).prod := by
  intro ps
  induction ps with
  | nil => simp
  | cons b bs ih =>
      intro a
      simp only [List.foldl_cons, List.map_cons, List.prod_cons]
      rw [ih, rateB_eq, mul_assoc]

lemma rateA_eq_specRate (y : ℕ → ℚ) (a : structA) : rateA y a = specRate y a := by
  unfold rateA specRate
  exact foldl_rateB_eq y a.players _

lemma foldl_add_eq_sum (f : α → ℚ) :
    ∀ (l : List α) (a : ℚ), l.foldl (fun acc q => acc + f q) a = a + (l.map f).sum := by
  intro l
  induction l with
  | nil => simp
  | cons x xs ih => intro a; simp [ih, add_assoc]

lemma dydtOf_eq (y : ℕ → ℚ) (sp : List structA) :
    dydtOf y sp = (sp.map (specRate y)).sum := by
  unfold dydtOf
  rw [foldl_add_eq_sum (rateA y) sp 0, zero_add]
  congr 1
  apply List.map_congr_left
  intro a _
  exact rateA_eq_specRate y a

/-- Claim C1: for every time and state vector, the derivative evaluator
`f_cvode` writes into each slot `i` the sum, over all processes stored for
slot `i`, of `upd * ccst * ∏ y[j]^order` over the process's reactant
descriptors (the factor being `y[j]` itself when `order = 1`, which equals
`y[j]^1`); it does not modify the process graph or `y`, and returns `0`. -/
theorem f_cvode_correct (s : CState) :
    (f_cvode s).2 = 0 ∧
    (f_cvode s).1.graph = s.graph ∧
    (f_cvode s).1.y = s.y ∧
    (f_cvode s).1.ydot.length = s.graph.length ∧
    ∀ i : ℕ, (f_cvode s).1.ydot.getD i 0 =
      ((s.graph.getD i []).map (specRate s.y)).sum := by
  refine ⟨rfl, rfl, rfl, by simp [f_cvode], ?_⟩
  intro i
  simp only [f_cvode]
  rcases Nat.lt_or_ge i s.graph.length with h | h
  · rw [List.getD_eq_getElem _ _ (by simpa using h), List.getD_eq_getElem _ _ h]
    simp [dydtOf_eq]
  · rw [List.getD_eq_default _ _ (by simpa using h), List.getD_eq_default _ _ h]
    simp

/-! ## Rate-coefficient scaling (`TetODE::_ccst`, `TetODE::_ccst2D`) -/

/-- Avogadro's constant `steps::math::AVOGADRO`.  Modelled from the spec:
"All amount conversions use Avogadro's constant" (`math/constants.hpp` is not
among the sources; the claims do not depend on the numerical value). -/
def AVOGADRO : ℚ := 6.02214179e23

/-- `TetODE::_ccst`: scaled volume-reaction coefficient
`kcst * pow(1.0e3 * vol * AVOGADRO, -(order - 1))`. -/
def _ccst (kcst vol : ℚ) (order : ℕ) : ℚ :=
  let vscale : ℚ := 1.0e3 * vol * AVOGADRO
  let o1 : ℤ := (order : ℤ) - 1
  kcst * vscale ^ (-o1)

/-- `TetODE::_ccst2D`: scaled surface-surface reaction coefficient
`kcst * pow(area * AVOGADRO, -(order - 1))`. -/
def _ccst2D (kcst area : ℚ) (order : ℕ) : ℚ :=
  let vscale : ℚ := area * AVOGADRO
  let o1 : ℤ := (order : ℤ) - 1
  kcst * vscale ^ (-o1)

/-- Claim C3: `_ccst k V n = k * (1000 V N_A)^(-(n-1))` and
`_ccst2D k A n = k * (A N_A)^(-(n-1))`; in particular a zero-order
reaction (`n = 0`) gives `k * (1000 V N_A)` and `k * (A N_A)`. -/
theorem ccst_spec (k V A : ℚ) (n : ℕ) :
    _ccst k V n = k * (1000 * V * AVOGADRO) ^ (-((n : ℤ) - 1)) ∧
    _ccst2D k A n = k * (A * AVOGADRO) ^ (-((n : ℤ) - 1)) ∧
    _ccst k V 0 = k * (1000 * V * AVOGADRO) ∧
    _ccst2D k A 0 = k * (A * AVOGADRO) := by
  refine ⟨by norm_num [_ccst], rfl, ?_, ?_⟩
  · show k * ((1.0e3 : ℚ) * V * AVOGADRO) ^ (-((0 : ℤ) - 1)) = _
    norm_num
  · show k * (A * AVOGADRO) ^ (-((0 : ℤ) - 1)) = _
    norm_num

/-! ## Static configuration after setup

The model/geometry registry objects (`solver/compdef.hpp`,
`solver/patchdef.hpp`, `tetode/comp.hpp`, `tetode/patch.hpp`,
`tetode/tet.hpp`) are not among the sources; their query interfaces are
embedded as record fields, modelled from the spec (§3, §4.1, §4.3): counts
of species/reactions/diffusions, global-to-local species and reaction
translation (`specG2L` etc., `none` = `LIDX_UNDEFINED`), per-rule order,
rate and diffusion constants and the diffusion dependency vector. -/

/-- One tetrahedron (`tetode/tet.hpp`: index, volume, the four face areas,
the four inter-centroid distances and the four neighbours).  `next l` is the
global index of the face-`l` neighbour connected by `setNextTet` during
`TetODE::_setup`, `none` when there is none (neighbour absent or in a
different compartment — see the `_setup` comment at its connection loop). -/
structure Tet where
  idx : ℕ
  vol : ℚ
  area : Fin 4 → ℚ
  dist : Fin 4 → ℚ
  next : Fin 4 → Option ℕ

/-- Compartment definition interface (`solver/compdef.hpp`, modelled from
the spec §4.3). -/
structure Compdef where
  nspecs : ℕ
  nreacs : ℕ
  ndiffs : ℕ
  specG2L : ℕ → Option ℕ
  reacG2L : ℕ → Option ℕ
  reacOrder : ℕ → ℕ
  kcst : ℕ → ℚ
  dcst : ℕ → ℚ
  diffDep : ℕ → ℕ → Bool

/-- A `steps::tetode::Comp`: its `Compdef`, its tetrahedra in local
(registration) order and its volume `Comp::vol()`. -/
structure Comp where
  cdef : Compdef
  tets : List Tet
  vol : ℚ

/-- One triangle (`tetode/tri.hpp` / `tri.cpp`): index, area and the global
indices of the inner and outer tetrahedra set during `_setup`. -/
structure Tri where
  idx : ℕ
  area : ℚ
  iTet : Option ℕ
  oTet : Option ℕ

/-- Patch definition interface (`solver/patchdef.hpp`, modelled from the
spec §3/§4.3): surface, inner and outer species counts, translations and
per-surface-reaction data. -/
structure Patchdef where
  nspecs : ℕ
  nspecsI : ℕ
  nspecsO : ℕ
  nsreacs : ℕ
  nsdiffs : ℕ
  specG2L : ℕ → Option ℕ
  sreacG2L : ℕ → Option ℕ
  sreacOrder : ℕ → ℕ
  sreacKcst : ℕ → ℚ
  surfSurf : ℕ → Bool
  inside : ℕ → Bool
  reqInside : ℕ → Bool
  reqOutside : ℕ → Bool
  sdcst : ℕ → ℚ
  surfdiffDep : ℕ → ℕ → Bool

/-- A `steps::tetode::Patch`: its `Patchdef`, its triangles in local order
and its area. -/
structure Patch where
  pdef : Patchdef
  tris : List Tri
  area : ℚ

/-- The compiled configuration: compartments then patches, in registration
order (`pComps`, `pPatches`). -/
structure Config where
  comps : List Comp
  patches : List Patch

/-- `pSpecs_tot` as accumulated in `TetODE::_setup`: species-count times
element-count summed over compartments, then over patches. -/
def specsTot (cfg : Config) : ℕ :=
  cfg.patches.foldl (fun acc p => acc + p.pdef.nspecs * p.tris.length)
    (cfg.comps.foldl (fun acc c => acc + c.cdef.nspecs * c.tets.length) 0)

/-- `pReacs_tot` as accumulated in `TetODE::_setup`. -/
def reacsTot (cfg : Config) : ℕ :=
  cfg.patches.foldl (fun acc p => acc + (p.pdef.nsreacs + p.pdef.nsdiffs) * p.tris.length)
    (cfg.comps.foldl (fun acc c => acc + (c.cdef.nreacs + c.cdef.ndiffs) * c.tets.length) 0)

/-- The state vector `y_cvode` as allocated and zero-initialised at the end
of `TetODE::_setup` (`N_VNew_Serial(pSpecs_tot)`, then `Ith(y_cvode,i)=0`). -/
def yInit (cfg : Config) : List ℚ := List.replicate (specsTot cfg) 0

/-- The absolute-tolerance vector `abstol_cvode` as allocated in `_setup`
(`N_VNew_Serial(pSpecs_tot)`, then `Ith(abstol_cvode,i) = 1.0e-3`). -/
def abstolInit (cfg : Config) : List ℚ := List.replicate (specsTot cfg) (1 / 1000)

lemma foldl_add_eq_sum_nat (f : α → ℕ) :
    ∀ (l : List α) (a : ℕ), l.foldl (fun acc q => acc + f q) a = a + (l.map f).sum := by
  intro l
  induction l with
  | nil => simp
  | cons x xs ih => intro a; simp [ih, Nat.add_assoc]

lemma specsTot_eq (cfg : Config) :
    specsTot cfg =
      (cfg.comps.map (fun c => c.cdef.nspecs * c.tets.length)).sum +
        (cfg.patches.map (fun p => p.pdef.nspecs * p.tris.length)).sum := by
  unfold specsTot
  rw [foldl_add_eq_sum_nat, foldl_add_eq_sum_nat]
  simp

/-- Claim C4: after setup the length of the global state vector
(`pSpecs_tot`, the allocated size of both `y_cvode` and `abstol_cvode`)
equals `Σ_c n_species(c)·n_tets(c) + Σ_p n_species(p)·n_tris(p)`. -/
theorem specsTot_correct (cfg : Config) :
    specsTot cfg =
      (cfg.comps.map (fun c => c.cdef.nspecs * c.tets.length)).sum +
        (cfg.patches.map (fun p => p.pdef.nspecs * p.tris.length)).sum ∧
    (yInit cfg).length = specsTot cfg ∧
    (abstolInit cfg).length = specsTot cfg :=
  ⟨specsTot_eq cfg, by simp [yInit], by simp [abstolInit]⟩

/-! ## Flat state-vector index arithmetic

These are the "step up marker to correct comp / patch" loops repeated
throughout `tetode.cpp`. -/

/-- `Σ_{m<i} countSpecs(m)·countTets(m)`: start of compartment `i`'s block
of the state vector. -/
def compSpecBase (cfg : Config) (i : ℕ) : ℕ :=
  ((cfg.comps.take i).map (fun c => c.cdef.nspecs * c.tets.length)).sum

/-- `Σ_{m<i} (countReacs(m)+countDiffs(m))·countTets(m)`: first process id
of compartment `i` (diffusion rules are counted as reactions too). -/
def compReacBase (cfg : Config) (i : ℕ) : ℕ :=
  ((cfg.comps.take i).map (fun c => (c.cdef.nreacs + c.cdef.ndiffs) * c.tets.length)).sum

/-- Start of the patch blocks: the species slots of all compartments. -/
def allCompSpecs (cfg : Config) : ℕ :=
  (cfg.comps.map (fun c => c.cdef.nspecs * c.tets.length)).sum

/-- All process ids of all compartments. -/
def allCompReacs (cfg : Config) : ℕ :=
  (cfg.comps.map (fun c => (c.cdef.nreacs + c.cdef.ndiffs) * c.tets.length)).sum

/-- Start of patch `p`'s block of the state vector. -/
def patchSpecBase (cfg : Config) (p : ℕ) : ℕ :=
  allCompSpecs cfg + ((cfg.patches.take p).map (fun q => q.pdef.nspecs * q.tris.length)).sum

/-- First process id of patch `p`. -/
def patchReacBase (cfg : Config) (p : ℕ) : ℕ :=
  allCompReacs cfg +
    ((cfg.patches.take p).map (fun q => (q.pdef.nsreacs + q.pdef.nsdiffs) * q.tris.length)).sum

/-- `Comp::getTet_GtoL`: global tetrahedron index to compartment-local
index (position in the compartment's tet list; `comp.cpp` is not among the
sources, the local order is the registration order per spec §3). -/
def getTet_GtoL (c : Comp) (g : ℕ) : ℕ :=
  c.tets.findIdx (fun t => t.idx == g)

/-- `Patch::getTri_GtoL`: global triangle index to patch-local index. -/
def getTri_GtoL (p : Patch) (g : ℕ) : ℕ :=
  p.tris.findIdx (fun t => t.idx == g)

/-! ## The volume-diffusion phase of the process-graph build (`_setup`)

Translation of the `compDiffs_N` loop of `TetODE::_setup`: for each tet
`t`, diffusion rule `j` and local species `k` with `diff_dep(j,k)`, each of
the four face directions `l` with a connected neighbour contributes two
processes.  At that point of `_setup` the running process-id marker
`reac_gidx` has the value `compReacBase cfg i + nreacs·ntets + ndiffs·t`
(all reactions of the compartment were appended first, then `ndiffs` ids
per already-visited tet), and the running slot marker recomputed through
`spec_base_idx` is `compSpecBase cfg i`. -/

/-- The two diffusion processes of one connection (`atmp_out` pushed at the
donor slot `spec_base_idx`, then `atmp_in` pushed at the acceptor slot
`spec_neighb_idx`; both read the donor slot with order 1). -/
def connDiffProcs (cfg : Config) (i : ℕ) (comp : Comp) (t j k : ℕ) (tet : Tet)
    (l : Fin 4) : List (ℕ × structA) :=
  match tet.next l with
  | none => []
  | some g =>
    let dcst := comp.cdef.dcst j
    let dist := tet.dist l
    let dccst := tet.area l * dcst / (tet.vol * dist)
    let specBase := compSpecBase cfg i
    let neighbLidx := getTet_GtoL comp g
    let specNeighbIdx := specBase + comp.cdef.nspecs * neighbLidx + k
    let specBaseIdx := specBase + comp.cdef.nspecs * t + k
    let rid := compReacBase cfg i + comp.cdef.nreacs * comp.tets.length
        + comp.cdef.ndiffs * t + j
    [(specBaseIdx, ⟨dccst, rid, -1, [⟨[⟨1, specBaseIdx⟩]⟩]⟩),
     (specNeighbIdx, ⟨dccst, rid, 1, [⟨[⟨1, specBaseIdx⟩]⟩]⟩)]

/-- All `(slot, process)` pairs appended by the volume-diffusion loop of
`_setup` for compartment `i`. -/
def compDiffAppends (cfg : Config) (i : ℕ) (comp : Comp) : List (ℕ × structA) :=
  (List.range comp.tets.length).flatMap fun t =>
    (List.range comp.cdef.ndiffs).flatMap fun j =>
      (List.range comp.cdef.nspecs).flatMap fun k =>
        if comp.cdef.diffDep j k then
          match comp.tets.get? t with
          | none => []
          | some tet => (List.finRange 4).flatMap (connDiffProcs cfg i comp t j k tet)
        else []

/-- Claim C2: for every volume diffusion rule `j` with constant `D` for
local species `k`, and every connection of tet `t` with a face-`l`
neighbour `g` made during setup, the diffusion phase appends exactly two
processes with the same conductance `area_face · D / (vol(T) · dist)`: an
update-multiplier `-1` process at the slot of `k` in `T` and a `+1`
process at the slot of `k` in the neighbour, both carrying the single
reactant descriptor `(order 1, donor slot)`; both appear in the phase's
output list. -/
theorem diff_pair_correct (cfg : Config) (i : ℕ) (comp : Comp) (t j k : ℕ)
    (tet : Tet) (l : Fin 4) (g : ℕ)
    (_hc : cfg.comps.get? i = some comp)
    (ht : comp.tets.get? t = some tet)
    (hj : j < comp.cdef.ndiffs)
    (hk : k < comp.cdef.nspecs)
    (hdep : comp.cdef.diffDep j k = true)
    (hn : tet.next l = some g) :
    connDiffProcs cfg i comp t j k tet l =
      [(compSpecBase cfg i + comp.cdef.nspecs * t + k,
        ⟨tet.area l * comp.cdef.dcst j / (tet.vol * tet.dist l),
         compReacBase cfg i + comp.cdef.nreacs * comp.tets.length
           + comp.cdef.ndiffs * t + j,
         -1, [⟨[⟨1, compSpecBase cfg i + comp.cdef.nspecs * t + k⟩]⟩]⟩),
       (compSpecBase cfg i + comp.cdef.nspecs * getTet_GtoL comp g + k,
        ⟨tet.area l * comp.cdef.dcst j / (tet.vol * tet.dist l),
         compReacBase cfg i + comp.cdef.nreacs * comp.tets.length
           + comp.cdef.ndiffs * t + j,
         1, [⟨[⟨1, compSpecBase cfg i + comp.cdef.nspecs * t + k⟩]⟩]⟩)] ∧
    ∀ pr ∈ connDiffProcs cfg i comp t j k tet l, pr ∈ compDiffAppends cfg i comp := by
  constructor
  · simp [connDiffProcs, hn]
  · intro pr hpr
    have hmem : pr ∈ (List.finRange 4).flatMap (connDiffProcs cfg i comp t j k tet) := by
      rw [List.mem_flatMap]
      exact ⟨l, List.mem_finRange l, hpr⟩
    have htlen : t < comp.tets.length := (List.get?_eq_some.mp ht).1
    unfold compDiffAppends
    rw [List.mem_flatMap]
    refine ⟨t, List.mem_range.mpr htlen, ?_⟩
    rw [List.mem_flatMap]
    refine ⟨j, List.mem_range.mpr hj, ?_⟩
    rw [List.mem_flatMap]
    refine ⟨k, List.mem_range.mpr hk, ?_⟩
    rw [hdep]
    simp only [if_true, ht]
    exact hmem

/-! Two-tet demonstration compartment with one species and one diffusion
rule, the tets connected through face 0 of each. -/

def demoTet3a : Tet :=
  ⟨0, 1, fun _ => 2, fun _ => 1, fun l => if l = 0 then some 1 else none⟩

def demoTet3b : Tet :=
  ⟨1, 1, fun _ => 2, fun _ => 1, fun l => if l = 0 then some 0 else none⟩

def demoCdef3 : Compdef :=
  ⟨1, 0, 1, fun sx => if sx == 0 then some 0 else none, fun _ => none,
   fun _ => 0, fun _ => 0, fun _ => 3, fun _ _ => true⟩

def demoComp3 : Comp := ⟨demoCdef3, [demoTet3a, demoTet3b], 2⟩

def demoCfg3 : Config := ⟨[demoComp3], []⟩

/-- Witness for `diff_pair_correct` at the two-tet demo compartment. -/
theorem diff_pair_correct_witness :
    (demoCfg3.comps.get? 0 = some demoComp3 ∧
      demoComp3.tets.get? 0 = some demoTet3a ∧
      0 < demoComp3.cdef.ndiffs ∧
      0 < demoComp3.cdef.nspecs ∧
      demoComp3.cdef.diffDep 0 0 = true ∧
      demoTet3a.next 0 = some 1) ∧
    (connDiffProcs demoCfg3 0 demoComp3 0 0 0 demoTet3a 0 =
      [(compSpecBase demoCfg3 0 + demoComp3.cdef.nspecs * 0 + 0,
        ⟨demoTet3a.area 0 * demoComp3.cdef.dcst 0 / (demoTet3a.vol * demoTet3a.dist 0),
         compReacBase demoCfg3 0 + demoComp3.cdef.nreacs * demoComp3.tets.length
           + demoComp3.cdef.ndiffs * 0 + 0,
         -1, [⟨[⟨1, compSpecBase demoCfg3 0 + demoComp3.cdef.nspecs * 0 + 0⟩]⟩]⟩),
       (compSpecBase demoCfg3 0 + demoComp3.cdef.nspecs * getTet_GtoL demoComp3 1 + 0,
        ⟨demoTet3a.area 0 * demoComp3.cdef.dcst 0 / (demoTet3a.vol * demoTet3a.dist 0),
         compReacBase demoCfg3 0 + demoComp3.cdef.nreacs * demoComp3.tets.length
           + demoComp3.cdef.ndiffs * 0 + 0,
         1, [⟨[⟨1, compSpecBase demoCfg3 0 + demoComp3.cdef.nspecs * 0 + 0⟩]⟩]⟩)] ∧
      ∀ pr ∈ connDiffProcs demoCfg3 0 demoComp3 0 0 0 demoTet3a 0,
        pr ∈ compDiffAppends demoCfg3 0 demoComp3) :=
  ⟨⟨rfl, rfl, by decide, by decide, rfl, rfl⟩,
   diff_pair_correct demoCfg3 0 demoComp3 0 0 0 demoTet3a 0 1 rfl rfl
     (by decide) (by decide) rfl rfl⟩

/-! ## Engine state and API operations

The spec's error taxonomy (§7) refines the C++ exception classes by throw
site: the `ArgErr` "Endtime is before current simulation time" in `run` is
`TimeRegression`; the `SysErr` on a CVODE non-success flag is
`IntegrationFailure`; `NotImplErr` is `NotImplemented`; the `ArgErr`
"Species/Reaction undefined in ..." throws are `NotDefined`; the `ArgErr`
"... has not been assigned to a compartment/patch" throws are
`ArgumentOutOfRange`.  A failing C++ `assert` is embedded as `Assertion`. -/

inductive Err where
  | TimeRegression
  | IntegrationFailure
  | NotImplemented
  | NotDefined
  | ArgumentOutOfRange
  | Assertion
deriving Repr, DecidableEq

/-- The abstract CVODE interface used by `TetODE` (spec §6): `σ` is the
opaque integrator memory `cvode_mem_cvode`; `advance` models `CVode` in
`CV_NORMAL` mode, returning `none` on a non-`CV_SUCCESS` flag and otherwise
the new memory plus the in-place-updated `y_cvode`. -/
structure CvApi (σ : Type) where
  setMaxSteps : σ → ℕ → σ
  setTol : σ → ℚ → List ℚ → σ
  reinitFn : σ → ℚ → List ℚ → σ
  advance : σ → ℚ → Option (σ × List ℚ)

/-- The mutable state of a `TetODE` instance after `_setup`: the static
configuration, the process graph `pSpec_matrixsub`, `y_cvode`,
`abstol_cvode`, `reltol_cvode`, `pNmax_cvode`, the `pTolsset` / `pReinit` /
`pInitialised` flags, the statedef simulation time (`statedef()->time()`,
returned by `getTime`), the checkpoint time scalar `t_cvode` and the
integrator memory. -/
structure Eng (σ : Type) where
  cfg : Config
  graph : Graph
  y : List ℚ
  abstol : List ℚ
  reltol : ℚ
  nmax : ℕ
  tolsset : Bool
  reinit : Bool
  initialised : Bool
  time : ℚ
  tCvode : ℚ
  cv : σ

/-- `TetODE::getTime`: returns `statedef()->time()`. -/
def getTime (s : Eng σ) : ℚ := s.time

/-- Resolution of the `pTets` array entry for a global tet index: the
compartment (global index and object) and the tet object, `none` when the
tetrahedron was never added to a compartment (`pTets[tidx] == 0`). -/
def findTetAux (tidx : ℕ) : ℕ → List Comp → Option (ℕ × Comp × Tet)
  | _, [] => none
  | i, c :: cs =>
    match c.tets.find? (fun t => t.idx == tidx) with
    | some tet => some (i, c, tet)
    | none => findTetAux tidx (i + 1) cs

def findTet (cfg : Config) (tidx : ℕ) : Option (ℕ × Comp × Tet) :=
  findTetAux tidx 0 cfg.comps

/-- Resolution of the `pTris` array entry for a global tri index. -/
def findTriAux (tidx : ℕ) : ℕ → List Patch → Option (ℕ × Patch × Tri)
  | _, [] => none
  | i, p :: ps =>
    match p.tris.find? (fun t => t.idx == tidx) with
    | some tri => some (i, p, tri)
    | none => findTriAux tidx (i + 1) ps

def findTri (cfg : Config) (tidx : ℕ) : Option (ℕ × Patch × Tri) :=
  findTriAux tidx 0 cfg.patches

/-! ### Count mutations -/

/-- The write loop of `TetODE::_setCompCount`:
`Ith(y, idx+((i*comp_nspecs)+slidx)) = n*(tetvol/comp_vol)` for each local
tet `i`. -/
def setCompLoop (comp : Comp) (base slidx : ℕ) (n : ℚ) (y : List ℚ) : ℕ → List ℚ
  | 0 => y
  | i + 1 =>
      (setCompLoop comp base slidx n y i).set
        (base + (i * comp.cdef.nspecs + slidx))
        (n * (((comp.tets.get? i).map Tet.vol).getD 0 / comp.vol))

/-- `TetODE::_setCompCount`: distributes `n` over the compartment's tets by
volume fraction and marks the integrator for reinitialisation. -/
def setCompCount (s : Eng σ) (cidx sidx : ℕ) (n : ℚ) : Except Err (Eng σ) :=
  match s.cfg.comps.get? cidx with
  | none => .error .Assertion
  | some comp =>
    match comp.cdef.specG2L sidx with
    | none => .error .NotDefined
    | some slidx =>
      .ok { s with
        y := setCompLoop comp (compSpecBase s.cfg cidx) slidx n s.y comp.tets.length,
        reinit := true }

/-- `TetODE::_getCompCount`: sums the species' slots over the
compartment's tets. -/
def getCompCount (s : Eng σ) (cidx sidx : ℕ) : Except Err ℚ :=
  match s.cfg.comps.get? cidx with
  | none => .error .Assertion
  | some comp =>
    match comp.cdef.specG2L sidx with
    | none => .error .NotDefined
    | some slidx =>
      .ok ((List.range comp.tets.length).foldl
        (fun c i =>
          c + s.y.getD (compSpecBase s.cfg cidx + (i * comp.cdef.nspecs + slidx)) 0) 0)

/-- The write loop of `TetODE::_setPatchCount` (area fractions). -/
def setPatchLoop (patch : Patch) (base slidx : ℕ) (n : ℚ) (y : List ℚ) : ℕ → List ℚ
  | 0 => y
  | i + 1 =>
      (setPatchLoop patch base slidx n y i).set
        (base + (i * patch.pdef.nspecs + slidx))
        (n * (((patch.tris.get? i).map Tri.area).getD 0 / patch.area))

/-- `TetODE::_setPatchCount`. -/
def setPatchCount (s : Eng σ) (pidx sidx : ℕ) (n : ℚ) : Except Err (Eng σ) :=
  match s.cfg.patches.get? pidx with
  | none => .error .Assertion
  | some patch =>
    match patch.pdef.specG2L sidx with
    | none => .error .NotDefined
    | some slidx =>
      .ok { s with
        y := setPatchLoop patch (patchSpecBase s.cfg pidx) slidx n s.y patch.tris.length,
        reinit := true }

/-- `TetODE::_setTetCount`. -/
def setTetCount (s : Eng σ) (tidx sidx : ℕ) (n : ℚ) : Except Err (Eng σ) :=
  match findTet s.cfg tidx with
  | none => .error .ArgumentOutOfRange
  | some (cidx, comp, _) =>
    match comp.cdef.specG2L sidx with
    | none => .error .NotDefined
    | some lsidx =>
      .ok { s with
        y := s.y.set
          (compSpecBase s.cfg cidx + comp.cdef.nspecs * getTet_GtoL comp tidx + lsidx) n,
        reinit := true }

/-- `TetODE::_getTetCount`. -/
def getTetCount (s : Eng σ) (tidx sidx : ℕ) : Except Err ℚ :=
  match findTet s.cfg tidx with
  | none => .error .ArgumentOutOfRange
  | some (cidx, comp, _) =>
    match comp.cdef.specG2L sidx with
    | none => .error .NotDefined
    | some lsidx =>
      .ok (s.y.getD
        (compSpecBase s.cfg cidx + comp.cdef.nspecs * getTet_GtoL comp tidx + lsidx) 0)

/-- `TetODE::_setTriCount`. -/
def setTriCount (s : Eng σ) (tidx sidx : ℕ) (n : ℚ) : Except Err (Eng σ) :=
  match findTri s.cfg tidx with
  | none => .error .ArgumentOutOfRange
  | some (pidx, patch, _) =>
    match patch.pdef.specG2L sidx with
    | none => .error .NotDefined
    | some lsidx =>
      .ok { s with
        y := s.y.set
          (patchSpecBase s.cfg pidx + patch.pdef.nspecs * getTri_GtoL patch tidx + lsidx) n,
        reinit := true }

/-! ### Rate-constant mutations -/

/-- Coefficient rebinding over one slot's process list: every process whose
`r_idx` matches gets the new `ccst`, the others are untouched
(`if ((*r).r_idx == reac_idx) (*r).ccst = ccst;`). -/
def rebind (rid : ℕ) (cc : ℚ) (procs : List structA) : List structA :=
  procs.map fun a => if a.r_idx == rid then { a with ccst := cc } else a

/-- The `for (k = 0; k < nspecs; ++k)` rebinding loop over the block of
`nspecs` consecutive slots starting at `base`. -/
def rebindRange (rid : ℕ) (cc : ℚ) (base : ℕ) (G : Graph) : ℕ → Graph
  | 0 => G
  | n + 1 =>
      let g := rebindRange rid cc base G n
      g.set (base + n) (rebind rid cc (g.getD (base + n) []))

/-- `TetODE::_setTetReacK`: recomputes the scaled coefficient from the
tet's volume and rebinds it on every process of the tet's slots whose
process id is the one of reaction `ridx` at this tet. -/
def setTetReacK (s : Eng σ) (tidx ridx : ℕ) (kf : ℚ) : Except Err (Eng σ) :=
  match findTet s.cfg tidx with
  | none => .error .ArgumentOutOfRange
  | some (cidx, comp, tet) =>
    match comp.cdef.reacG2L ridx with
    | none => .error .NotDefined
    | some lridx =>
      let tlidx := getTet_GtoL comp tidx
      let specIdx := compSpecBase s.cfg cidx + comp.cdef.nspecs * tlidx
      let reacIdx := compReacBase s.cfg cidx + comp.cdef.nreacs * tlidx + lridx
      let cc := _ccst kf tet.vol (comp.cdef.reacOrder lridx)
      .ok { s with graph := rebindRange reacIdx cc specIdx s.graph comp.cdef.nspecs }

/-- `TetODE::_setCompReacK`: applies `_setTetReacK` to every tet of the
compartment. -/
def setCompReacK (s : Eng σ) (cidx ridx : ℕ) (kf : ℚ) : Except Err (Eng σ) :=
  match s.cfg.comps.get? cidx with
  | none => .error .Assertion
  | some comp => comp.tets.foldlM (fun st tet => setTetReacK st tet.idx ridx kf) s

/-- `TetODE::_setTriSReacK`: recomputes the scaled coefficient (2D scaling
for surface-surface reactions, otherwise the inner or outer tet volume per
the `inside` flag) and rebinds it on the triangle's slots, then on the
inner tet's slots when the reaction needs inner species and on the outer
tet's slots when it needs outer species. -/
def setTriSReacK (s : Eng σ) (tidx ridx : ℕ) (kf : ℚ) : Except Err (Eng σ) :=
  match findTri s.cfg tidx with
  | none => .error .ArgumentOutOfRange
  | some (pidx, patch, tri) =>
    match patch.pdef.sreacG2L ridx with
    | none => .error .NotDefined
    | some lsridx =>
      let ccE : Except Err ℚ :=
        if patch.pdef.surfSurf lsridx = false then
          if patch.pdef.inside lsridx = true then
            match tri.iTet with
            | none => .error .Assertion
            | some g =>
              match findTet s.cfg g with
              | none => .error .Assertion
              | some (_, _, itet) =>
                .ok (_ccst kf itet.vol (patch.pdef.sreacOrder lsridx))
          else
            match tri.oTet with
            | none => .error .Assertion
            | some g =>
              match findTet s.cfg g with
              | none => .error .Assertion
              | some (_, _, otet) =>
                .ok (_ccst kf otet.vol (patch.pdef.sreacOrder lsridx))
        else .ok (_ccst2D kf tri.area (patch.pdef.sreacOrder lsridx))
      match ccE with
      | .error e => .error e
      | .ok cc =>
        let tlidx := getTri_GtoL patch tidx
        let specIdx := patchSpecBase s.cfg pidx + patch.pdef.nspecs * tlidx
        let reacIdx := patchReacBase s.cfg pidx + patch.pdef.nsreacs * tlidx + lsridx
        let g1 := rebindRange reacIdx cc specIdx s.graph patch.pdef.nspecs
        let g2E : Except Err Graph :=
          if patch.pdef.reqInside lsridx then
            match tri.iTet with
            | none => .error .Assertion
            | some g =>
              match findTet s.cfg g with
              | none => .error .Assertion
              | some (icidx, icomp, itet) =>
                .ok (rebindRange reacIdx cc
                  (compSpecBase s.cfg icidx + icomp.cdef.nspecs * getTet_GtoL icomp itet.idx)
                  g1 icomp.cdef.nspecs)
          else .ok g1
        match g2E with
        | .error e => .error e
        | .ok g2 =>
          let g3E : Except Err Graph :=
            if patch.pdef.reqOutside lsridx then
              match tri.oTet with
              | none => .error .Assertion
              | some g =>
                match findTet s.cfg g with
                | none => .error .Assertion
                | some (ocidx, ocomp, otet) =>
                  .ok (rebindRange reacIdx cc
                    (compSpecBase s.cfg ocidx + ocomp.cdef.nspecs * getTet_GtoL ocomp otet.idx)
                    g2 ocomp.cdef.nspecs)
            else .ok g2
          match g3E with
          | .error e => .error e
          | .ok g3 => .ok { s with graph := g3 }

/-- `TetODE::_setPatchSReacK`: applies `_setTriSReacK` to every triangle
of the patch. -/
def setPatchSReacK (s : Eng σ) (pidx ridx : ℕ) (kf : ℚ) : Except Err (Eng σ) :=
  match s.cfg.patches.get? pidx with
  | none => .error .Assertion
  | some patch => patch.tris.foldlM (fun st tri => setTriSReacK st tri.idx ridx kf) s

/-! ### Unimplemented API surface -/

/-- `TetODE::_getCompClamped`: `throw steps::NotImplErr()`. -/
def getCompClamped (_s : Eng σ) (_cidx _sidx : ℕ) : Except Err Bool :=
  .error .NotImplemented

/-- `TetODE::_setCompClamped`: `throw steps::NotImplErr()`. -/
def setCompClamped (_s : Eng σ) (_cidx _sidx : ℕ) (_b : Bool) : Except Err Unit :=
  .error .NotImplemented

/-- `TetODE::_getPatchClamped`: `throw steps::NotImplErr()`. -/
def getPatchClamped (_s : Eng σ) (_pidx _sidx : ℕ) : Except Err Bool :=
  .error .NotImplemented

/-- `TetODE::_setPatchClamped`: `throw steps::NotImplErr()`. -/
def setPatchClamped (_s : Eng σ) (_pidx _sidx : ℕ) (_b : Bool) : Except Err Unit :=
  .error .NotImplemented

/-- `TetODE::_getCompReacActive`: `return true;` — it does NOT throw. -/
def getCompReacActive (_s : Eng σ) (_cidx _ridx : ℕ) : Except Err Bool :=
  .ok true

/-- `TetODE::_setCompReacActive`: `throw steps::NotImplErr()`. -/
def setCompReacActive (_s : Eng σ) (_cidx _ridx : ℕ) (_a : Bool) : Except Err Unit :=
  .error .NotImplemented

/-- `TetODE::_getPatchSReacActive`: `throw steps::NotImplErr()` (the
`return true` after it is dead code). -/
def getPatchSReacActive (_s : Eng σ) (_pidx _ridx : ℕ) : Except Err Bool :=
  .error .NotImplemented

/-- `TetODE::_setPatchSReacActive`: `throw steps::NotImplErr()`. -/
def setPatchSReacActive (_s : Eng σ) (_pidx _ridx : ℕ) (_a : Bool) : Except Err Unit :=
  .error .NotImplemented

/-- `TetODE::reset`: `throw steps::NotImplErr(...)`. -/
def reset (_s : Eng σ) : Except Err Unit :=
  .error .NotImplemented

/-! ### run / restore -/

/-- The one-time initialisation branch of `TetODE::run`
(`if (not pInitialised) { CVodeSetMaxNumSteps; CVodeSVtolerances; }`; the
missing-tolerances warning is only a console print). -/
def runInitPhase (M : CvApi σ) (s : Eng σ) : Eng σ :=
  if s.initialised then s
  else { s with cv := M.setTol (M.setMaxSteps s.cv s.nmax) s.reltol s.abstol,
                initialised := true }

/-- The reinitialisation branch of `TetODE::run`
(`if (pReinit) { CVodeReInit(mem, statedef()->time(), y_cvode); pReinit = false; }`). -/
def runReinitPhase (M : CvApi σ) (s : Eng σ) : Eng σ :=
  if s.reinit then { s with cv := M.reinitFn s.cv s.time s.y, reinit := false }
  else s

/-- `TetODE::run`: time-regression check, immediate return at `endtime == 0`,
lazy integrator initialisation, conditional reinit, CVODE step, and commit
of the new time on success.  On CVODE failure the exception is thrown
before `statedef()->setTime` (the partially advanced `y_cvode` left behind
by CVODE is not modelled, no claim reads it). -/
def run (M : CvApi σ) (s : Eng σ) (endtime : ℚ) : Except Err (Eng σ) :=
  if endtime < s.time then .error .TimeRegression
  else if endtime == 0 then .ok s
  else
    let s1 := runInitPhase M s
    let s2 := runReinitPhase M s1
    match M.advance s2.cv endtime with
    | none => .error .IntegrationFailure
    | some (cv2, y2) => .ok { s2 with cv := cv2, y := y2, time := endtime }

/-- The engine part of a checkpoint file (`TetODE::checkpoint` items after
the statedef and substate blobs): `t_cvode`, `reltol_cvode`,
`pNmax_cvode`, the `abstol_cvode` data and the `y_cvode` data. -/
structure Checkpoint where
  t : ℚ
  rtol : ℚ
  nmax : ℕ
  abstol : List ℚ
  y : List ℚ

/-- `TetODE::restore`: reads back the five engine items and sets
`pTolsset = true`.  The preceding `statedef()->restore` and the
comp/patch/tri/tet substate restores change nothing: `Tri::checkpoint` /
`Tri::restore` are empty (`tri.cpp`), and the statedef blob is modelled
from the spec as a registry serialisation that must identity-match the
current configuration, so restoring it is observationally a no-op. -/
def restore (s : Eng σ) (chk : Checkpoint) : Eng σ :=
  { s with tCvode := chk.t, reltol := chk.rtol, nmax := chk.nmax,
           abstol := chk.abstol, y := chk.y, tolsset := true }

/-! ## Theorems: integration driver and API surface -/

lemma runInitPhase_time (M : CvApi σ) (s : Eng σ) : (runInitPhase M s).time = s.time := by
  unfold runInitPhase; split <;> rfl

lemma runInitPhase_y (M : CvApi σ) (s : Eng σ) : (runInitPhase M s).y = s.y := by
  unfold runInitPhase; split <;> rfl

lemma runInitPhase_reinit (M : CvApi σ) (s : Eng σ) : (runInitPhase M s).reinit = s.reinit := by
  unfold runInitPhase; split <;> rfl

/-- Claim C6: `run(t_end)` fails with `TimeRegression` when
`t_end < t_now`; otherwise at `t_end = 0` it returns with the state
unchanged; otherwise, after the one-time initialisation phase, if the
pending-reinit flag is set the integrator is re-initialised at
`(t_now, y)` and the flag cleared before stepping; a non-success step
fails with `IntegrationFailure`, and a successful step commits the new
`y` and sets `t_now` to exactly `t_end`. -/
theorem run_correct (M : CvApi σ) (s : Eng σ) (endtime : ℚ) :
    (endtime < s.time → run M s endtime = .error .TimeRegression) ∧
    (¬ endtime < s.time → endtime = 0 → run M s endtime = .ok s) ∧
    (¬ endtime < s.time → endtime ≠ 0 →
      ((s.reinit = true →
        (runReinitPhase M (runInitPhase M s)).cv
          = M.reinitFn (runInitPhase M s).cv s.time s.y ∧
        (runReinitPhase M (runInitPhase M s)).reinit = false) ∧
      (s.reinit = false → runReinitPhase M (runInitPhase M s) = runInitPhase M s) ∧
      (M.advance (runReinitPhase M (runInitPhase M s)).cv endtime = none →
        run M s endtime = .error .IntegrationFailure) ∧
      (∀ cv2 y2, M.advance (runReinitPhase M (runInitPhase M s)).cv endtime = some (cv2, y2) →
        run M s endtime =
          .ok { runReinitPhase M (runInitPhase M s) with
                  cv := cv2, y := y2, time := endtime }))) := by
  refine ⟨?_, ?_, ?_⟩
  · intro h; unfold run; rw [if_pos h]
  · intro h h0; unfold run; rw [if_neg h, if_pos (by simp [h0])]
  · intro h h0
    have hge : run M s endtime =
        (match M.advance (runReinitPhase M (runInitPhase M s)).cv endtime with
          | none => .error .IntegrationFailure
          | some (cv2, y2) =>
              .ok { runReinitPhase M (runInitPhase M s) with
                      cv := cv2, y := y2, time := endtime }) := by
      unfold run
      rw [if_neg h, if_neg (by simpa using h0)]
    refine ⟨?_, ?_, ?_, ?_⟩
    · intro hr
      constructor
      · unfold runReinitPhase
        rw [runInitPhase_reinit, hr, if_pos rfl, runInitPhase_time, runInitPhase_y]
      · unfold runReinitPhase
        rw [runInitPhase_reinit, hr, if_pos rfl]
    · intro hr
      unfold runReinitPhase
      rw [runInitPhase_reinit, hr]
      simp
    · intro ha; rw [hge, ha]
    · intro cv2 y2 ha; rw [hge, ha]

/-- Counterexample to claim C9 as stated: `_getCompReacActive` does not
fail with `NotImplemented`; it silently returns `true`. -/
theorem getCompReacActive_silently_succeeds :
    getCompReacActive (σ := Unit)
      ⟨⟨[], []⟩, [], [], [], 1 / 1000, 10000, false, true, false, 0, 0, ()⟩ 0 0
      = Except.ok true := rfl

/-- Claim C9 (amended): every clamping and activation operation of the API
surface fails with `NotImplemented` — except `getCompReacActive`, which
silently returns `true`; `reset` also fails with `NotImplemented`. -/
theorem notImplemented_surface (σ : Type) (s : Eng σ) (c p r sx : ℕ) (b a : Bool) :
    getCompClamped s c sx = .error .NotImplemented ∧
    setCompClamped s c sx b = .error .NotImplemented ∧
    getPatchClamped s p sx = .error .NotImplemented ∧
    setPatchClamped s p sx b = .error .NotImplemented ∧
    setCompReacActive s c r a = .error .NotImplemented ∧
    getPatchSReacActive s p r = .error .NotImplemented ∧
    setPatchSReacActive s p r a = .error .NotImplemented ∧
    reset s = .error .NotImplemented ∧
    getCompReacActive s c r = .ok true :=
  ⟨rfl, rfl, rfl, rfl, rfl, rfl, rfl, rfl, rfl⟩

/-- Claim C10: `restore` overwrites the checkpointed time scalar, `rtol`,
`max_steps`, the absolute-tolerance vector and `y` with the checkpointed
values and sets the tolerances-set flag, leaving the pending-reinit flag
and all other engine state unchanged; hence a `run` immediately after
`restore` passes the restored state to the integrator's reinit exactly
when the flag was already true beforehand. -/
theorem restore_correct (M : CvApi σ) (s : Eng σ) (chk : Checkpoint) :
    (restore s chk).tCvode = chk.t ∧
    (restore s chk).reltol = chk.rtol ∧
    (restore s chk).nmax = chk.nmax ∧
    (restore s chk).abstol = chk.abstol ∧
    (restore s chk).y = chk.y ∧
    (restore s chk).tolsset = true ∧
    (restore s chk).reinit = s.reinit ∧
    (restore s chk).time = s.time ∧
    (restore s chk).graph = s.graph ∧
    (restore s chk).cfg = s.cfg ∧
    (restore s chk).initialised = s.initialised ∧
    (restore s chk).cv = s.cv ∧
    (s.reinit = false →
      runReinitPhase M (runInitPhase M (restore s chk)) = runInitPhase M (restore s chk)) ∧
    (s.reinit = true →
      (runReinitPhase M (runInitPhase M (restore s chk))).cv
        = M.reinitFn (runInitPhase M (restore s chk)).cv s.time chk.y) := by
  refine ⟨rfl, rfl, rfl, rfl, rfl, rfl, rfl, rfl, rfl, rfl, rfl, rfl, ?_, ?_⟩
  · intro hr
    have h1 : (restore s chk).reinit = false := hr
    simp [runReinitPhase, runInitPhase_reinit, h1]
  · intro hr
    have h1 : (restore s chk).reinit = true := hr
    simp [runReinitPhase, runInitPhase_reinit, h1, runInitPhase_time, runInitPhase_y, restore, hr]

/-! ## Theorems: the pending-reinit flag under mutations -/

lemma setCompCount_reinit (s : Eng σ) (c sx : ℕ) (n : ℚ) (e : Eng σ)
    (h : setCompCount s c sx n = .ok e) : e.reinit = true := by
  unfold setCompCount at h
  split at h
  · cases h
  · split at h
    · cases h
    · cases h; rfl

lemma setPatchCount_reinit (s : Eng σ) (p sx : ℕ) (n : ℚ) (e : Eng σ)
    (h : setPatchCount s p sx n = .ok e) : e.reinit = true := by
  unfold setPatchCount at h
  split at h
  · cases h
  · split at h
    · cases h
    · cases h; rfl

lemma setTetCount_reinit (s : Eng σ) (t sx : ℕ) (n : ℚ) (e : Eng σ)
    (h : setTetCount s t sx n = .ok e) : e.reinit = true := by
  unfold setTetCount at h
  split at h
  · cases h
  · split at h
    · cases h
    · cases h; rfl

lemma setTriCount_reinit (s : Eng σ) (t sx : ℕ) (n : ℚ) (e : Eng σ)
    (h : setTriCount s t sx n = .ok e) : e.reinit = true := by
  unfold setTriCount at h
  split at h
  · cases h
  · split at h
    · cases h
    · cases h; rfl

lemma setTetReacK_keeps_reinit (s : Eng σ) (t r : ℕ) (kf : ℚ) (e : Eng σ)
    (h : setTetReacK s t r kf = .ok e) : e.reinit = s.reinit := by
  unfold setTetReacK at h
  split at h
  · cases h
  · split at h
    · cases h
    · cases h; rfl

lemma setTriSReacK_keeps_reinit (s : Eng σ) (t r : ℕ) (kf : ℚ) (e : Eng σ)
    (h : setTriSReacK s t r kf = .ok e) : e.reinit = s.reinit := by
  unfold setTriSReacK at h
  repeat' split at h
  all_goals cases h
  all_goals rfl

lemma foldlM_keeps_reinit {α : Type} (f : Eng σ → α → Except Err (Eng σ))
    (hf : ∀ s x e, f s x = .ok e → e.reinit = s.reinit) :
    ∀ (l : List α) (s e : Eng σ), l.foldlM f s = .ok e → e.reinit = s.reinit := by
  intro l
  induction l with
  | nil =>
      intro s e h
      simp only [List.foldlM_nil, pure, Except.pure] at h
      cases h; rfl
  | cons x xs ih =>
      intro s e h
      simp only [List.foldlM_cons] at h
      cases hfx : f s x with
      | error er => rw [hfx] at h; simp [Bind.bind, Except.bind] at h
      | ok s1 =>
          rw [hfx] at h
          simp only [Bind.bind, Except.bind] at h
          exact (ih s1 e h).trans (hf s x s1 hfx)

lemma setCompReacK_keeps_reinit (s : Eng σ) (c r : ℕ) (kf : ℚ) (e : Eng σ)
    (h : setCompReacK s c r kf = .ok e) : e.reinit = s.reinit := by
  unfold setCompReacK at h
  split at h
  · cases h
  · exact foldlM_keeps_reinit _ (fun s x e => setTetReacK_keeps_reinit s x.idx r kf e) _ s e h

lemma setPatchSReacK_keeps_reinit (s : Eng σ) (p r : ℕ) (kf : ℚ) (e : Eng σ)
    (h : setPatchSReacK s p r kf = .ok e) : e.reinit = s.reinit := by
  unfold setPatchSReacK at h
  split at h
  · cases h
  · exact foldlM_keeps_reinit _ (fun s x e => setTriSReacK_keeps_reinit s x.idx r kf e) _ s e h

/-! Concrete single-tet demonstration configuration: one compartment with
one species, one first-order reaction and no diffusion rules; one unit
tetrahedron; no patches; a one-slot state vector and a one-process graph. -/

def demoTet : Tet := ⟨0, 1, fun _ => 1, fun _ => 1, fun _ => none⟩

def demoCdef : Compdef :=
  ⟨1, 1, 0,
   fun sx => if sx == 0 then some 0 else none,
   fun r => if r == 0 then some 0 else none,
   fun _ => 2, fun _ => 1, fun _ => 0, fun _ _ => false⟩

def demoComp : Comp := ⟨demoCdef, [demoTet], 1⟩

def demoCfg : Config := ⟨[demoComp], []⟩

def demoEng : Eng Unit :=
  ⟨demoCfg, [[⟨5, 0, -1, [⟨[⟨1, 0⟩]⟩]⟩]], [0], [1 / 1000],
   1 / 1000, 10000, false, false, false, 0, 0, ()⟩

/-- Counterexample to claim C5 as stated: setting a rate constant
(`_setTetReacK` on the demo engine, whose pending-reinit flag is `false`)
succeeds and leaves the pending-reinit flag `false`. -/
theorem setTetReacK_no_reinit_cex :
    Except.map (fun e => Eng.reinit e) (setTetReacK demoEng 0 0 3) = Except.ok false := rfl

/-- Claim C5 (amended): every user mutation that sets a species count
(`_setCompCount`, `_setPatchCount`, `_setTetCount`, `_setTriCount`) sets
the pending-reinit flag; the rate-constant mutations (`_setTetReacK`,
`_setTriSReacK`, `_setCompReacK`, `_setPatchSReacK`) leave the flag
unchanged — they rewrite the process-graph coefficients in place instead. -/
theorem mutation_reinit_correct (σ : Type) (s : Eng σ) (i j : ℕ) (n kf : ℚ) (e : Eng σ) :
    (setCompCount s i j n = .ok e → e.reinit = true) ∧
    (setPatchCount s i j n = .ok e → e.reinit = true) ∧
    (setTetCount s i j n = .ok e → e.reinit = true) ∧
    (setTriCount s i j n = .ok e → e.reinit = true) ∧
    (setTetReacK s i j kf = .ok e → e.reinit = s.reinit) ∧
    (setTriSReacK s i j kf = .ok e → e.reinit = s.reinit) ∧
    (setCompReacK s i j kf = .ok e → e.reinit = s.reinit) ∧
    (setPatchSReacK s i j kf = .ok e → e.reinit = s.reinit) :=
  ⟨setCompCount_reinit s i j n e, setPatchCount_reinit s i j n e,
   setTetCount_reinit s i j n e, setTriCount_reinit s i j n e,
   setTetReacK_keeps_reinit s i j kf e, setTriSReacK_keeps_reinit s i j kf e,
   setCompReacK_keeps_reinit s i j kf e, setPatchSReacK_keeps_reinit s i j kf e⟩

/-! ## Theorems: rate-constant rebinding (`_setTetReacK`) -/

lemma getD_set (l : List α) (i m : ℕ) (a d : α) :
    (l.set i a).getD m d = if m = i ∧ i < l.length then a else l.getD m d := by
  rw [List.getD_eq_getElem?_getD, List.getD_eq_getElem?_getD, List.getElem?_set]
  by_cases h1 : i = m
  · subst h1
    by_cases h2 : i < l.length
    · simp [h2]
    · simp [h2, List.getElem?_eq_none (Nat.le_of_not_lt h2)]
  · simp [h1, Ne.symm h1]

lemma rebindRange_length (rid : ℕ) (cc : ℚ) (base : ℕ) (G : Graph) (n : ℕ) :
    (rebindRange rid cc base G n).length = G.length := by
  induction n with
  | zero => rfl
  | succ k ih => simp only [rebindRange, List.length_set]; exact ih

lemma rebindRange_getD (rid : ℕ) (cc : ℚ) (base : ℕ) (G : Graph) (n m : ℕ) :
    (rebindRange rid cc base G n).getD m [] =
      if base ≤ m ∧ m < base + n ∧ m < G.length then rebind rid cc (G.getD m [])
      else G.getD m [] := by
  induction n with
  | zero =>
      rw [if_neg (show ¬ (base ≤ m ∧ m < base + 0 ∧ m < G.length) by omega)]
      rfl
  | succ k ih =>
      show ((rebindRange rid cc base G k).set (base + k)
          (rebind rid cc ((rebindRange rid cc base G k).getD (base + k) []))).getD m []
        = _
      rw [getD_set, rebindRange_length]
      by_cases hm : m = base + k ∧ base + k < G.length
      · obtain ⟨hm1, hm2⟩ := hm
        subst hm1
        rw [if_pos ⟨rfl, hm2⟩, ih]
        rw [if_neg (show ¬ (base ≤ base + k ∧ base + k < base + k ∧ base + k < G.length)
              by omega),
            if_pos (show base ≤ base + k ∧ base + k < base + (k + 1) ∧ base + k < G.length
              by omega)]
      · rw [if_neg hm, ih]
        have hiff : (base ≤ m ∧ m < base + k ∧ m < G.length)
            ↔ (base ≤ m ∧ m < base + (k + 1) ∧ m < G.length) := by omega
        rw [if_congr hiff rfl rfl]

/-- Claim C8: for a tet `tidx` resolved to compartment `cidx` and a
reaction `ridx` defined there, `_setTetReacK` rebinds, on each of the
tet's `nspecs` state slots, the coefficient of exactly the processes whose
process id is the one of reaction `ridx` at this tet to
`_ccst(kf, vol(tet), order)`, leaving processes with any other id, the
slots of all other elements, and the state vector `y` unchanged. -/
theorem setTetReacK_correct (σ : Type) (s : Eng σ) (tidx ridx cidx lridx : ℕ)
    (comp : Comp) (tet : Tet) (kf : ℚ)
    (ht : findTet s.cfg tidx = some (cidx, comp, tet))
    (hr : comp.cdef.reacG2L ridx = some lridx) :
    ∃ e, setTetReacK s tidx ridx kf = .ok e ∧
      e.y = s.y ∧ e.time = s.time ∧ e.reinit = s.reinit ∧ e.cfg = s.cfg ∧
      e.graph.length = s.graph.length ∧
      ∀ m, e.graph.getD m [] =
        if compSpecBase s.cfg cidx + comp.cdef.nspecs * getTet_GtoL comp tidx ≤ m
            ∧ m < compSpecBase s.cfg cidx + comp.cdef.nspecs * getTet_GtoL comp tidx
                + comp.cdef.nspecs
            ∧ m < s.graph.length then
          rebind (compReacBase s.cfg cidx + comp.cdef.nreacs * getTet_GtoL comp tidx + lridx)
            (_ccst kf tet.vol (comp.cdef.reacOrder lridx)) (s.graph.getD m [])
        else s.graph.getD m [] := by
  have heq : setTetReacK s tidx ridx kf =
      .ok { s with graph :=
        (rebindRange (compReacBase s.cfg cidx + comp.cdef.nreacs * getTet_GtoL comp tidx + lridx)
          (_ccst kf tet.vol (comp.cdef.reacOrder lridx))
          (compSpecBase s.cfg cidx + comp.cdef.nspecs * getTet_GtoL comp tidx)
          s.graph comp.cdef.nspecs) } := by
    simp only [setTetReacK, ht, hr]
  refine ⟨_, heq, rfl, rfl, rfl, rfl, rebindRange_length _ _ _ _ _, fun m => ?_⟩
  exact rebindRange_getD _ _ _ _ _ m

/-- Witness for `setTetReacK_correct` at the demo configuration. -/
theorem setTetReacK_correct_witness :
    (findTet demoEng.cfg 0 = some (0, demoComp, demoTet) ∧
      demoComp.cdef.reacG2L 0 = some 0) ∧
    ∃ e, setTetReacK demoEng 0 0 3 = .ok e ∧
      e.y = demoEng.y ∧ e.time = demoEng.time ∧ e.reinit = demoEng.reinit ∧
      e.cfg = demoEng.cfg ∧
      e.graph.length = demoEng.graph.length ∧
      ∀ m, e.graph.getD m [] =
        if compSpecBase demoEng.cfg 0 + demoComp.cdef.nspecs * getTet_GtoL demoComp 0 ≤ m
            ∧ m < compSpecBase demoEng.cfg 0 + demoComp.cdef.nspecs * getTet_GtoL demoComp 0
                + demoComp.cdef.nspecs
            ∧ m < demoEng.graph.length then
          rebind (compReacBase demoEng.cfg 0 + demoComp.cdef.nreacs * getTet_GtoL demoComp 0 + 0)
            (_ccst 3 demoTet.vol (demoComp.cdef.reacOrder 0)) (demoEng.graph.getD m [])
        else demoEng.graph.getD m [] :=
  ⟨⟨rfl, rfl⟩, setTetReacK_correct Unit demoEng 0 0 0 0 demoComp demoTet 3 rfl rfl⟩

/-! ## Theorems: compartment count distribution (`_setCompCount` / `_getCompCount`) -/

lemma setCompLoop_length (comp : Comp) (base sl : ℕ) (n : ℚ) (y : List ℚ) (k : ℕ) :
    (setCompLoop comp base sl n y k).length = y.length := by
  induction k with
  | zero => rfl
  | succ j ih => simp only [setCompLoop, List.length_set]; exact ih

lemma slot_inj (base ns sl i j : ℕ) (hsl : sl < ns)
    (h : base + (i * ns + sl) = base + (j * ns + sl)) : i = j := by
  have h2 : i * ns = j * ns := by omega
  exact Nat.eq_of_mul_eq_mul_right (by omega) h2

lemma setCompLoop_getD_frame (comp : Comp) (base sl : ℕ) (n : ℚ) (y : List ℚ)
    (k m : ℕ) (hm : ∀ i, i < k → m ≠ base + (i * comp.cdef.nspecs + sl)) :
    (setCompLoop comp base sl n y k).getD m 0 = y.getD m 0 := by
  induction k with
  | zero => rfl
  | succ j ih =>
      show ((setCompLoop comp base sl n y j).set (base + (j * comp.cdef.nspecs + sl))
        (n * (((comp.tets.get? j).map Tet.vol).getD 0 / comp.vol))).getD m 0 = _
      rw [getD_set,
        if_neg (fun hcon => hm j (Nat.lt_succ_self j) hcon.1)]
      exact ih (fun i hi => hm i (Nat.lt_succ_of_lt hi))

lemma setCompLoop_getD_hit (comp : Comp) (base sl : ℕ) (n : ℚ) (y : List ℚ)
    (k i : ℕ) (hi : i < k) (hsl : sl < comp.cdef.nspecs)
    (hb : base + (i * comp.cdef.nspecs + sl) < y.length) :
    (setCompLoop comp base sl n y k).getD (base + (i * comp.cdef.nspecs + sl)) 0
      = n * (((comp.tets.get? i).map Tet.vol).getD 0 / comp.vol) := by
  induction k with
  | zero => exact absurd hi (Nat.not_lt_zero i)
  | succ j ih =>
      show ((setCompLoop comp base sl n y j).set (base + (j * comp.cdef.nspecs + sl))
        (n * (((comp.tets.get? j).map Tet.vol).getD 0 / comp.vol))).getD
          (base + (i * comp.cdef.nspecs + sl)) 0 = _
      rw [getD_set, setCompLoop_length]
      by_cases hij : i = j
      · subst hij
        rw [if_pos ⟨rfl, hb⟩]
      · rw [if_neg (fun hcon => hij (slot_inj base comp.cdef.nspecs sl i j hsl hcon.1))]
        exact ih (by omega)

lemma slot_lt_specsTot (cfg : Config) (cidx : ℕ) (comp : Comp) (i sl : ℕ)
    (hc : cfg.comps.get? cidx = some comp)
    (hi : i < comp.tets.length) (hsl : sl < comp.cdef.nspecs) :
    compSpecBase cfg cidx + (i * comp.cdef.nspecs + sl) < specsTot cfg := by
  have hlt : cidx < cfg.comps.length := (List.get?_eq_some.mp hc).1
  have hcomp : cfg.comps[cidx] = comp := by
    have h2 := (List.get?_eq_some.mp hc).2
    simpa [List.get_eq_getElem] using h2
  have hdec : cfg.comps = cfg.comps.take cidx ++ comp :: cfg.comps.drop (cidx + 1) := by
    conv_lhs => rw [← List.take_append_drop cidx cfg.comps]
    rw [List.drop_eq_getElem_cons hlt, hcomp]
  have hS : (cfg.comps.map (fun c => c.cdef.nspecs * c.tets.length)).sum
      = ((cfg.comps.take cidx).map (fun c => c.cdef.nspecs * c.tets.length)).sum
        + (comp.cdef.nspecs * comp.tets.length
          + ((cfg.comps.drop (cidx + 1)).map (fun c => c.cdef.nspecs * c.tets.length)).sum) := by
    conv_lhs => rw [hdec]
    rw [List.map_append, List.sum_append, List.map_cons, List.sum_cons]
  have hlt2 : i * comp.cdef.nspecs + sl < comp.cdef.nspecs * comp.tets.length := by
    have h3 : i * comp.cdef.nspecs + sl < (i + 1) * comp.cdef.nspecs := by
      have : (i + 1) * comp.cdef.nspecs = i * comp.cdef.nspecs + comp.cdef.nspecs := by ring
      omega
    have h4 : (i + 1) * comp.cdef.nspecs ≤ comp.tets.length * comp.cdef.nspecs :=
      Nat.mul_le_mul_right _ hi
    have h5 : comp.tets.length * comp.cdef.nspecs = comp.cdef.nspecs * comp.tets.length :=
      Nat.mul_comm _ _
    omega
  rw [specsTot_eq]
  unfold compSpecBase
  omega

lemma sum_map_mul_left_q (f : α → ℚ) (b : ℚ) (l : List α) :
    (l.map (fun x => b * f x)).sum = b * (l.map f).sum := by
  induction l with
  | nil => simp
  | cons x xs ih => simp [ih, mul_add]

lemma sum_range_tetvol (l : List Tet) :
    ((List.range l.length).map (fun i => ((l.get? i).map Tet.vol).getD 0)).sum
      = (l.map Tet.vol).sum := by
  induction l with
  | nil => simp
  | cons x xs ih =>
      rw [List.length_cons, List.range_succ_eq_map, List.map_cons, List.sum_cons,
        List.map_map, List.map_cons, List.sum_cons]
      congr 1

/-- Claim C7: for a species defined in a compartment, `_setCompCount`
assigns `n · vol(tet)/vol(comp)` to the species' slot of every tet of the
compartment and leaves every other state-vector slot unchanged, and an
immediate `_getCompCount` returns exactly `n` (in exact arithmetic, when
the compartment volume is the sum of its tets' volumes). -/
theorem setCompCount_correct (σ : Type) (s : Eng σ) (cidx sidx : ℕ) (comp : Comp)
    (sl : ℕ) (n : ℚ)
    (hc : s.cfg.comps.get? cidx = some comp)
    (hs : comp.cdef.specG2L sidx = some sl)
    (hsl : sl < comp.cdef.nspecs)
    (hlen : s.y.length = specsTot s.cfg)
    (hvol : comp.vol = (comp.tets.map Tet.vol).sum)
    (hvne : comp.vol ≠ 0) :
    ∃ e, setCompCount s cidx sidx n = .ok e ∧
      (∀ i, i < comp.tets.length →
        e.y.getD (compSpecBase s.cfg cidx + (i * comp.cdef.nspecs + sl)) 0
          = n * (((comp.tets.get? i).map Tet.vol).getD 0 / comp.vol)) ∧
      (∀ m, (∀ i, i < comp.tets.length →
          m ≠ compSpecBase s.cfg cidx + (i * comp.cdef.nspecs + sl)) →
        e.y.getD m 0 = s.y.getD m 0) ∧
      getCompCount e cidx sidx = .ok n := by
  have heq : setCompCount s cidx sidx n =
      .ok { s with
        y := setCompLoop comp (compSpecBase s.cfg cidx) sl n s.y comp.tets.length,
        reinit := true } := by
    simp only [setCompCount, hc, hs]
  refine ⟨_, heq, ?_, ?_, ?_⟩
  · intro i hi
    exact setCompLoop_getD_hit comp _ sl n s.y _ i hi hsl
      (by rw [hlen]; exact slot_lt_specsTot s.cfg cidx comp i sl hc hi hsl)
  · intro m hm
    exact setCompLoop_getD_frame comp _ sl n s.y _ m hm
  · have hterm : ∀ i ∈ List.range comp.tets.length,
        (setCompLoop comp (compSpecBase s.cfg cidx) sl n s.y comp.tets.length).getD
            (compSpecBase s.cfg cidx + (i * comp.cdef.nspecs + sl)) 0
          = (n / comp.vol) * (((comp.tets.get? i).map Tet.vol).getD 0) := by
      intro i hi
      have hi2 : i < comp.tets.length := List.mem_range.mp hi
      have hb : compSpecBase s.cfg cidx + (i * comp.cdef.nspecs + sl) < s.y.length := by
        rw [hlen]
        exact slot_lt_specsTot s.cfg cidx comp i sl hc hi2 hsl
      rw [setCompLoop_getD_hit comp _ sl n s.y _ i hi2 hsl hb]
      ring
    simp only [getCompCount, hc, hs]
    congr 1
    rw [foldl_add_eq_sum _ _ 0, zero_add]
    rw [List.map_congr_left hterm]
    rw [sum_map_mul_left_q (fun i => ((comp.tets.get? i).map Tet.vol).getD 0)
        (n / comp.vol) (List.range comp.tets.length)]
    rw [sum_range_tetvol, ← hvol, div_mul_cancel₀ n hvne]

/-! Two-tet demonstration compartment (volumes 1 and 3, total volume 4,
one species) for the count-distribution witness. -/

def demoTet2a : Tet := ⟨0, 1, fun _ => 1, fun _ => 1, fun _ => none⟩

def demoTet2b : Tet := ⟨1, 3, fun _ => 1, fun _ => 1, fun _ => none⟩

def demoCdef2 : Compdef :=
  ⟨1, 0, 0, fun sx => if sx == 0 then some 0 else none, fun _ => none,
   fun _ => 0, fun _ => 0, fun _ => 0, fun _ _ => false⟩

def demoComp2 : Comp := ⟨demoCdef2, [demoTet2a, demoTet2b], 4⟩

def demoCfg2 : Config := ⟨[demoComp2], []⟩

def demoEng2 : Eng Unit :=
  ⟨demoCfg2, [[], []], [0, 0], [1 / 1000, 1 / 1000],
   1 / 1000, 10000, false, true, false, 0, 0, ()⟩

/-- Witness for `setCompCount_correct` at the two-tet demo engine. -/
theorem setCompCount_correct_witness :
    (demoEng2.cfg.comps.get? 0 = some demoComp2 ∧
      demoComp2.cdef.specG2L 0 = some 0 ∧
      0 < demoComp2.cdef.nspecs ∧
      demoEng2.y.length = specsTot demoEng2.cfg ∧
      demoComp2.vol = (demoComp2.tets.map Tet.vol).sum ∧
      demoComp2.vol ≠ 0) ∧
    ∃ e, setCompCount demoEng2 0 0 8 = .ok e ∧
      (∀ i, i < demoComp2.tets.length →
        e.y.getD (compSpecBase demoEng2.cfg 0 + (i * demoComp2.cdef.nspecs + 0)) 0
          = 8 * (((demoComp2.tets.get? i).map Tet.vol).getD 0 / demoComp2.vol)) ∧
      (∀ m, (∀ i, i < demoComp2.tets.length →
          m ≠ compSpecBase demoEng2.cfg 0 + (i * demoComp2.cdef.nspecs + 0)) →
        e.y.getD m 0 = demoEng2.y.getD m 0) ∧
      getCompCount e 0 0 = .ok 8 :=
  ⟨⟨rfl, rfl, by decide, rfl,
    by norm_num [demoComp2, demoTet2a, demoTet2b],
    by norm_num [demoComp2]⟩,
   setCompCount_correct Unit demoEng2 0 0 demoComp2 0 8 rfl rfl (by decide) rfl
     (by norm_num [demoComp2, demoTet2a, demoTet2b])
     (by norm_num [demoComp2])⟩

end Steps
